import Mathlib

/-!
Verification development for the kr/session library: authenticated,
encrypted session tokens carried in HTTP cookies.

The repository contains three historical variants, each embedded in its
own namespace:

* `Session.AgeV`     — session.go: age-based public-key encryption with
  `Encode`/`Decode`/`Get`/`Set` and replacing `setCookie`.
* `Session.BoxFlat`  — the flat-config NaCl secretbox variant
  (`Name`/`Path`/`Domain` fields, 4093-byte Set-Cookie size check).
* `Session.BoxEmbed` — the secretbox variant whose Config embeds the
  http.Cookie and which preallocates the Open output buffer.

Modelling conventions:

* bytes are `Nat` (genuine envelopes only ever hold values < 256; the
  claims depend on byte positions and lengths, not on byte bounds);
* time is `Int` in Unix seconds; Go `time.Duration` configuration values
  are likewise modelled in seconds;
* the JSON codec (`encoding/json`) and the net/http cookie text
  serializer consumed by the secretbox Set are collaborator interfaces
  and enter as function parameters; the parts of net/http cookie
  serialization and parsing that session.go's replacement logic relies
  on are modelled concretely (`cookieString`, `parseSetCookie`);
* authenticated encryption is idealized: sealing prepends a 16-entry
  tag determined by key, nonce and plaintext and opening verifies that
  tag, matching NaCl secretbox's `Overhead = 16` and 24-byte nonces;
  age encryption is modelled as a ciphertext structure recording the
  recipient set and the plaintext, with `none` standing for a token
  that fails base64/age parsing;
* Go runtime panics (slice bound violations, negative `make` lengths)
  are an explicit `crash` outcome of the embedded functions.
-/

namespace Session

/-- Big-endian 64-bit encoding of an `int64` value, as produced by
`binary.Write(w, binary.BigEndian, expires)` and
`binary.BigEndian.PutUint64` (the value is reduced modulo 2^64 and
split into eight base-256 digits, most significant first). -/
def be64enc (e : Int) : List Nat :=
  let m := (e % 18446744073709551616).toNat
  [m / 72057594037927936 % 256, m / 281474976710656 % 256,
   m / 1099511627776 % 256, m / 4294967296 % 256,
   m / 16777216 % 256, m / 65536 % 256, m / 256 % 256, m % 256]

/-- Big-endian read of eight bytes as a `uint64`
(`binary.BigEndian.Uint64` / `binary.Read` into an int64) followed by
Go's `int64(…)` reinterpretation. -/
def be64dec (bs : List Nat) : Int :=
  let m : Nat := (bs.foldl (fun a b => a * 256 + b) 0) % 18446744073709551616
  if m < 9223372036854775808 then (m : Int) else (m : Int) - 18446744073709551616

/-- The subset of net/http.Cookie used by this package.  `SameSite`
uses Go's numbering (Lax = 2, Strict = 3, None = 4). -/
structure GoCookie where
  Name : String := ""
  Value : List Char := []
  Path : String := ""
  Domain : String := ""
  Expires : Int := 0
  MaxAge : Int := 0
  Secure : Bool := false
  HttpOnly : Bool := false
  SameSite : Nat := 0
  deriving DecidableEq, Repr

/-- The error values surfaced by the package. -/
inductive GErr
  /-- http.ErrNoCookie, returned by Request.Cookie when the named
  cookie is absent. -/
  | notFound
  /-- ErrInvalid ("invalid session cookie") in the secretbox variants;
  also covers the age variant's decryption failures (bad base64, no
  matching identity, corrupted ciphertext). -/
  | invalid
  /-- errors.New("expired") in the age variant's Decode. -/
  | expired
  /-- the io error from binary.Read on an envelope shorter than
  8 bytes. -/
  | readErr
  /-- a json decoding (shape) error. -/
  | deser
  /-- a json.Marshal error surfaced by the secretbox Set. -/
  | encodingErr
  /-- age.Encrypt refusing an empty recipient list. -/
  | encryptErr
  /-- setCookie's errors.New("invalid") for an unserializable cookie. -/
  | invalidCookie
  /-- ErrTooLong ("encoded session too long"). -/
  | tooLong
  deriving DecidableEq, Repr

/-- Result of an operation that cannot hit a Go runtime panic. -/
inductive Res (α : Type)
  | ok (v : α)
  | err (e : GErr)
  deriving DecidableEq, Repr

/-- Result of an operation that can also hit a Go runtime panic
(`crash` models the panic). -/
inductive XRes (α : Type)
  | crash
  | ok (v : α)
  | err (e : GErr)
  deriving DecidableEq, Repr

/-- net/http Request.Cookie: the first cookie of the request with the
given name; `none` models the ErrNoCookie return. -/
def lookupCookie {β : Type} (req : List (String × β)) (nm : String) : Option β :=
  (req.find? (fun p => p.1 == nm)).map (fun p => p.2)

/-- Fold a byte list into a single value; only used so that the ideal
authentication tag depends on the nonce and the plaintext. -/
def mash (l : List Nat) : Nat := l.foldl (fun a b => Nat.pair a b) 0

/-- Ideal 16-entry secretbox authentication tag, determined by key,
nonce and plaintext (Overhead = 16 in golang.org/x/crypto/nacl/secretbox). -/
def sbTag (key : Nat) (nonce : List Nat) (pt : List Nat) : List Nat :=
  List.replicate 16 (Nat.pair key (Nat.pair (mash nonce) (mash pt)))

/-- secretbox.Seal onto an empty destination: the tag followed by the
plaintext, so the box is `len(pt) + Overhead` bytes long. -/
def sbSeal (key : Nat) (nonce : List Nat) (pt : List Nat) : List Nat :=
  sbTag key nonce pt ++ pt

/-- secretbox.Open onto an empty destination: boxes shorter than
Overhead are rejected; otherwise the tag is verified and the plaintext
returned. -/
def sbOpen (box : List Nat) (key : Nat) (nonce : List Nat) : Option (List Nat) :=
  if box.length < 16 then none
  else if box.take 16 = sbTag key nonce (box.drop 16) then some (box.drop 16)
  else none

/-- `copy(nonce[:], t)`: the first 24 bytes of the cookie value,
zero-padded on the right to 24 entries. -/
def nonceOf (t : List Nat) : List Nat :=
  t.take 24 ++ List.replicate (24 - t.length) 0

/-- The shared tail of Get in both secretbox variants, run on a
successfully opened box: `binary.BigEndian.Uint64(tb)` (which goes out
of range when the plaintext is shorter than 8 bytes), the TTL check
`time.Since(time.Unix(int64(ts), 0)) > config.maxAge()`, then
`json.Unmarshal(tb[8:], v)`. -/
def handlePlain {α : Type} (v_dec : List Nat → Option α) (now maxAge : Int)
    (tb : List Nat) : XRes α :=
  if tb.length < 8 then XRes.crash
  else if now - be64dec (tb.take 8) > maxAge then XRes.err GErr.invalid
  else match v_dec (tb.drop 8) with
    | some v => XRes.ok v
    | none => XRes.err GErr.deser

namespace BoxFlat

/-- The flat secretbox Config: Name, Path, Domain, MaxAge (a Duration,
modelled in seconds), and the ordered key list. -/
structure Config where
  Name : String := ""
  Path : String := ""
  Domain : String := ""
  MaxAge : Int := 0
  Keys : List Nat := []
  deriving DecidableEq, Repr

/-- `func (c *Config) maxAge()`: 0 is taken to be 100 years
(100 * 365 * 24 * time.Hour = 3153600000 seconds). -/
def Config.maxAge (c : Config) : Int :=
  if c.MaxAge = 0 then 3153600000 else c.MaxAge

/-- `func (c *Config) name()`: an empty Name is taken to be "session". -/
def Config.name (c : Config) : String :=
  if c.Name = "" then "session" else c.Name

/-- The key-trial loop of Get.  Every iteration evaluates `t[24:]`,
which goes out of range (a Go panic) when the cookie value is shorter
than the 24-byte nonce; with no keys the loop never runs. -/
def getLoop {α : Type} (v_dec : List Nat → Option α) (now maxAge : Int)
    (t : List Nat) : List Nat → XRes α
  | [] => XRes.err GErr.invalid
  | key :: keys =>
    if t.length < 24 then XRes.crash
    else match sbOpen (t.drop 24) key (nonceOf t) with
      | some tb => handlePlain v_dec now maxAge tb
      | none => getLoop v_dec now maxAge t keys

/-- Get of the flat secretbox variant: find the named request cookie
(ErrNoCookie when absent), then try each configured key in order,
returning ErrInvalid when none opens the box. -/
def Get {α : Type} (req : List (String × List Nat)) (v_dec : List Nat → Option α)
    (config : Config) (now : Int) : XRes α :=
  match lookupCookie req config.name with
  | none => XRes.err GErr.notFound
  | some t => getLoop v_dec now config.maxAge t config.Keys

/-- The http.Cookie literal built by the flat secretbox Set. -/
structure CookieRec where
  Name : String
  Value : List Nat
  Expires : Int
  Path : String
  Domain : String
  Secure : Bool
  HttpOnly : Bool
  deriving DecidableEq, Repr

/-- The plaintext sealed by Set (`tb` in the source): the 8-byte
big-endian issuance timestamp `uint64(now.Unix())` followed by the
json.Marshal output. -/
def sealPlain (nowSec : Int) (b : List Nat) : List Nat := be64enc nowSec ++ b

/-- The cookie record Set builds: defaulted name, the raw sealed bytes
as value, expiry now+maxAge, Path defaulted to "/", and Secure and
HttpOnly unconditionally true. -/
def buildCookie (config : Config) (now : Int) (value : List Nat) : CookieRec :=
  { Name := config.name, Value := value, Expires := now + config.maxAge,
    Path := if config.Path = "" then "/" else config.Path,
    Domain := config.Domain, Secure := true, HttpOnly := true }

/-- Result of Set: the possibly-updated Set-Cookie header list, an
error leaving the headers unchanged, or a Go panic. -/
inductive SetRes
  | crash
  | err (e : GErr) (hdr : List (List Nat))
  | ok (hdr : List (List Nat))
  deriving DecidableEq, Repr

/-- maxSize = 4093: the largest serialized Set-Cookie line browsers are
expected to store. -/
def maxSize : Nat := 4093

/-- Set of the flat secretbox variant: json.Marshal (its error is
returned as-is), seal the timestamped envelope under Keys[0] (an index
panic when Keys is empty), build the cookie, serialize it with the
net/http collaborator `cookieStr`, reject lines longer than maxSize
with ErrTooLong before anything is written, else append the header. -/
def Set {α : Type} (hdr : List (List Nat)) (v : α) (v_enc : α → Option (List Nat))
    (cookieStr : CookieRec → List Nat) (config : Config) (now : Int)
    (nonce : List Nat) : SetRes :=
  match v_enc v with
  | none => SetRes.err GErr.encodingErr hdr
  | some b =>
    match config.Keys with
    | [] => SetRes.crash
    | key0 :: _ =>
      let out := nonce ++ sbSeal key0 nonce (sealPlain now b)
      let s := cookieStr (buildCookie config now out)
      if maxSize < s.length then SetRes.err GErr.tooLong hdr
      else SetRes.ok (hdr ++ [s])

end BoxFlat

namespace BoxEmbed

/-- The embedded-cookie secretbox Config: an http.Cookie template plus
MaxAge (a Duration, modelled in seconds) and the key list. -/
structure Config where
  Cookie : GoCookie := {}
  MaxAge : Int := 0
  Keys : List Nat := []
  deriving DecidableEq, Repr

/-- `func (c *Config) maxAge()`: 0 is taken to be 100 years. -/
def Config.maxAge (c : Config) : Int :=
  if c.MaxAge = 0 then 3153600000 else c.MaxAge

/-- `func (c *Config) name()`: an empty embedded cookie Name is taken
to be "session". -/
def Config.name (c : Config) : String :=
  if c.Cookie.Name = "" then "session" else c.Cookie.Name

/-- The key-trial loop of the embedded-cookie Get.  This variant passes
the preallocated buffer `out` to secretbox.Open, which appends the
decrypted plaintext to it, so the value handed to the shared tail is
`out ++ pt`. -/
def getLoop {α : Type} (v_dec : List Nat → Option α) (now maxAge : Int)
    (t out : List Nat) : List Nat → XRes α
  | [] => XRes.err GErr.invalid
  | key :: keys =>
    match sbOpen (t.drop 24) key (nonceOf t) with
    | some pt => handlePlain v_dec now maxAge (out ++ pt)
    | none => getLoop v_dec now maxAge t out keys

/-- Get of the embedded-cookie secretbox variant.  Before the key loop
it allocates `out := make([]byte, len(t)-secretbox.Overhead-24)`; a
cookie value shorter than 40 bytes makes that length negative, a Go
panic, regardless of the key list. -/
def Get {α : Type} (req : List (String × List Nat)) (v_dec : List Nat → Option α)
    (config : Config) (now : Int) : XRes α :=
  match lookupCookie req config.name with
  | none => XRes.err GErr.notFound
  | some t =>
    if t.length < 40 then XRes.crash
    else getLoop v_dec now config.maxAge t (List.replicate (t.length - 40) 0) config.Keys

end BoxEmbed

namespace AgeV

/-- An age ciphertext: the identities able to open it and the sealed
plaintext.  The age format composed with base64url is an injective
transport encoding, so tokens are modelled by this structure directly;
at use sites `none` stands for a token string that fails base64 or age
parsing. -/
structure AgeToken where
  recipients : List Nat
  plaintext : List Nat
  deriving DecidableEq, Repr

/-- DefaultCookie: the settings used when Config.Cookie is nil
(MaxAge = 100 * 365 * 24 * 60 * 60 seconds, SameSite Lax). -/
def DefaultCookie : GoCookie :=
  { Name := "session", Path := "/", MaxAge := 3153600000,
    Secure := true, HttpOnly := true, SameSite := 2 }

/-- Config of the age variant: the identity list and the optional
cookie template. -/
structure Config where
  Keys : List Nat := []
  Cookie : Option GoCookie := none
  deriving DecidableEq, Repr

/-- `func (c *Config) cookie()`: DefaultCookie when Cookie is nil. -/
def Config.cookie (c : Config) : GoCookie := c.Cookie.getD DefaultCookie

/-- Encode: expires = now + MaxAge; age.Encrypt to every key (an error
for an empty recipient list); then `_ = binary.Write(enc, encBig,
expires)` and `_ = json.NewEncoder(enc).Encode(v)` — both error values
are discarded, so a failed json.Marshal simply contributes no payload
bytes to the envelope. -/
def Encode {α : Type} (v : α) (v_enc : α → Option (List Nat)) (config : Config)
    (now : Int) : Res AgeToken :=
  if config.Keys = [] then Res.err GErr.encryptErr
  else Res.ok { recipients := config.Keys,
                plaintext := be64enc (now + config.cookie.MaxAge) ++ (v_enc v).getD [] }

/-- Decode: base64-decode and age.Decrypt with every configured
identity (any parse or decryption failure is one error value); read the
8-byte big-endian expiration; if `time.Since(time.Unix(expires, 0)) > 0`
fail with the "expired" error; else json-decode the rest. -/
def Decode {α : Type} (token : Option AgeToken) (v_dec : List Nat → Option α)
    (config : Config) (now : Int) : Res α :=
  match token with
  | none => Res.err GErr.invalid
  | some ct =>
    if config.Keys.any (fun k => ct.recipients.contains k) then
      if ct.plaintext.length < 8 then Res.err GErr.readErr
      else if be64dec (ct.plaintext.take 8) < now then Res.err GErr.expired
      else match v_dec (ct.plaintext.drop 8) with
        | some v => Res.ok v
        | none => Res.err GErr.deser
    else Res.err GErr.invalid

/-- Get: `req.Cookie(config.cookie().Name)`, returning its error
(ErrNoCookie) when the cookie is absent, else Decode on the value. -/
def Get {α : Type} (req : List (String × Option AgeToken)) (v_dec : List Nat → Option α)
    (config : Config) (now : Int) : Res α :=
  match lookupCookie req config.cookie.Name with
  | none => Res.err GErr.notFound
  | some token => Decode token v_dec config now

/-- Token characters accepted in a cookie name (net/http
isCookieNameValid; a conservative subset of the RFC 2616 token
characters — in particular no ';', '=', or whitespace). -/
def validNameChar (ch : Char) : Bool :=
  ch.isAlphanum || ch == '!' || ch == '#' || ch == '$' || ch == '%' || ch == '&'
    || ch == '*' || ch == '+' || ch == '-' || ch == '.' || ch == '^' || ch == '_'
    || ch == '|' || ch == '~'

/-- net/http isCookieNameValid: nonempty and all token characters. -/
def validName (s : String) : Bool :=
  !(s == "") && s.toList.all validNameChar

/-- net/http validCookieValueByte: printable ASCII except '"', ';'
and backslash. -/
def validValueChar (ch : Char) : Bool :=
  Nat.ble 32 ch.toNat && Nat.blt ch.toNat 127
    && !(ch == '"') && !(ch == ';') && !(ch == '\\')

/-- All value characters valid. -/
def validValue (v : List Char) : Bool := v.all validValueChar

/-- One serialized cookie attribute: "; " then label and value. -/
def attrChunk (label v : List Char) : List Char := ';' :: ' ' :: (label ++ v)

/-- The attribute portion of net/http Cookie.String for the fields this
package sets, in Go's order (Path, Domain, Max-Age, HttpOnly, Secure,
SameSite); a zero Expires is never serialized. -/
def attrText (c : GoCookie) : List Char :=
  List.flatten
    [if c.Path = "" then [] else attrChunk ("Path=".toList) c.Path.toList,
     if c.Domain = "" then [] else attrChunk ("Domain=".toList) c.Domain.toList,
     if 0 < c.MaxAge then attrChunk ("Max-Age=".toList) (toString c.MaxAge).toList
       else if c.MaxAge < 0 then attrChunk ("Max-Age=".toList) ['0'] else [],
     if c.HttpOnly then attrChunk ("HttpOnly".toList) [] else [],
     if c.Secure then attrChunk ("Secure".toList) [] else [],
     if c.SameSite = 2 then attrChunk ("SameSite=".toList) ("Lax".toList)
       else if c.SameSite = 3 then attrChunk ("SameSite=".toList) ("Strict".toList)
       else if c.SameSite = 4 then attrChunk ("SameSite=".toList) ("None".toList) else []]

/-- net/http Cookie.String: empty for an invalid cookie name, otherwise
`name=value` followed by the attributes. -/
def cookieString (c : GoCookie) : List Char :=
  if validName c.Name then c.Name.toList ++ '=' :: (c.Value ++ attrText c)
  else []

/-- The name/value parse net/http readSetCookies performs on one
Set-Cookie line: the text before the first ';' is cut at the first '=';
both the name and the value must be valid. -/
def parseSetCookie (s : List Char) : Option (List Char × List Char) :=
  let seg := s.takeWhile (fun ch => !(ch == ';'))
  let nm := seg.takeWhile (fun ch => !(ch == '='))
  match seg.dropWhile (fun ch => !(ch == '=')) with
  | [] => none
  | _ :: val =>
    if nm.all validNameChar && !nm.isEmpty && val.all validValueChar then some (nm, val)
    else none

/-- isValidCookie: whether s is a valid Set-Cookie encoding of a cookie
with the given name (the source round-trips through http.Response). -/
def isValidCookie (s : List Char) (name : String) : Bool :=
  match parseSetCookie s with
  | some p => p.1 == name.toList
  | none => false

/-- setCookie: serialize; an empty serialization is the "invalid"
error; replace every existing Set-Cookie entry carrying the same cookie
name, appending a new entry only when none matched. -/
def setCookie (h : List (List Char)) (cookie : GoCookie) : Res (List (List Char)) :=
  let s := cookieString cookie
  if s = [] then Res.err GErr.invalidCookie
  else
    if h.any (fun e => isValidCookie e cookie.Name) then
      Res.ok (h.map (fun e => if isValidCookie e cookie.Name then s else e))
    else Res.ok (h ++ [s])

/-- Set: Encode the session, store the token text as the configured
cookie's value, and install it with setCookie.  The rendering of the
token structure into cookie-value text (base64url output) is the
collaborator parameter `tokenText`. -/
def Set {α : Type} (hdr : List (List Char)) (v : α) (v_enc : α → Option (List Nat))
    (tokenText : AgeToken → List Char) (config : Config) (now : Int) :
    Res (List (List Char)) :=
  match Encode v v_enc config now with
  | Res.err e => Res.err e
  | Res.ok tok => setCookie hdr { config.cookie with Value := tokenText tok }

end AgeV

/-! Definitions used only to state and witness concrete instances of
the claims. -/

/-- A concrete one-byte serializer used by witnesses. -/
def wEnc (n : Nat) : Option (List Nat) := some [n]

/-- The matching deserializer. -/
def wDec (l : List Nat) : Option Nat :=
  match l with
  | [x] => some x
  | _ => none

/-- A 24-entry zero nonce. -/
def nonce0 : List Nat := List.replicate 24 0

/-- A concrete cookie value for the key-order witness: zero nonce, then
a box sealed under key 2 containing timestamp 0 and payload byte 7. -/
def c4t : List Nat := nonce0 ++ sbSeal 2 nonce0 (be64enc 0 ++ [7])

/- ------------------------------------------------------------------
Theorems.
------------------------------------------------------------------ -/

theorem be64enc_length (e : Int) : (be64enc e).length = 8 := rfl

theorem be64dec_be64enc (e : Int) (h0 : 0 ≤ e) (h1 : e < 9223372036854775808) :
    be64dec (be64enc e) = e := by
  have hm : e % 18446744073709551616 = e := Int.emod_eq_of_lt h0 (by omega)
  simp only [be64enc, be64dec, hm, List.foldl_cons, List.foldl_nil]
  split
  · omega
  · omega

theorem sbOpen_sbSeal (key : Nat) (nonce pt : List Nat) :
    sbOpen (sbSeal key nonce pt) key nonce = some pt := by
  have hl : (sbTag key nonce pt).length = 16 := by simp [sbTag]
  unfold sbOpen sbSeal
  rw [List.take_left' hl, List.drop_left' hl]
  simp [sbTag, List.length_append, hl]

theorem any_contains_self (l : List Nat) (h : l ≠ []) :
    l.any (fun k => l.contains k) = true := by
  cases l with
  | nil => exact absurd rfl h
  | cons a t => simp [List.any_cons]

namespace AgeV

/-- What Encode produces when the key list is nonempty. -/
theorem encode_eq {α : Type} (v : α) (v_enc : α → Option (List Nat)) (config : Config)
    (now : Int) (hk : config.Keys ≠ []) :
    Encode v v_enc config now
      = Res.ok { recipients := config.Keys,
                 plaintext := be64enc (now + config.cookie.MaxAge) ++ (v_enc v).getD [] } := by
  simp [Encode, hk]

/-- Evaluation of Decode on a well-formed token encrypted to the
configured keys. -/
theorem decode_of_encode {α : Type} (v_dec : List Nat → Option α) (config : Config)
    (now e : Int) (b : List Nat) (hk : config.Keys ≠ [])
    (h0 : 0 ≤ e) (hfit : e < 9223372036854775808) :
    Decode (some { recipients := config.Keys, plaintext := be64enc e ++ b }) v_dec config now
      = if e < now then Res.err GErr.expired
        else match v_dec b with
          | some v => Res.ok v
          | none => Res.err GErr.deser := by
  have hany := any_contains_self config.Keys hk
  have htake : (be64enc e ++ b).take 8 = be64enc e := List.take_left' (be64enc_length e)
  have hdrop : (be64enc e ++ b).drop 8 = b := List.drop_left' (be64enc_length e)
  have hlen8 : ¬ ((be64enc e ++ b).length < 8) := by
    simp [List.length_append, be64enc_length]
  simp only [Decode]
  rw [if_pos hany, if_neg hlen8, htake, hdrop, be64dec_be64enc e h0 hfit]

end AgeV

/-- C1.  Round-trip: decoding a token produced by Encode with the same
key set, at the same instant, and with a round-trip-serializable
payload yields the payload again
(`Decode(Encode(P, keys, ttl), keys, ttl) == P`). -/
theorem round_trip_encode_decode {α : Type} (v : α) (v_enc : α → Option (List Nat))
    (v_dec : List Nat → Option α) (config : AgeV.Config) (now : Int) (b : List Nat)
    (tok : AgeV.AgeToken)
    (hk : config.Keys ≠ [])
    (hb : v_enc v = some b) (hrt : v_dec b = some v)
    (h0 : 0 ≤ now) (hma : 0 ≤ (AgeV.Config.cookie config).MaxAge)
    (hfit : now + (AgeV.Config.cookie config).MaxAge < 9223372036854775808)
    (henc : AgeV.Encode v v_enc config now = Res.ok tok) :
    AgeV.Decode (some tok) v_dec config now = Res.ok v := by
  rw [AgeV.encode_eq v v_enc config now hk] at henc
  have htok := (Res.ok.injEq _ _).mp henc.symm
  subst htok
  rw [hb]
  have := AgeV.decode_of_encode v_dec config now (now + (AgeV.Config.cookie config).MaxAge)
    b hk (by omega) hfit
  simp only [Option.getD_some]
  rw [this, if_neg (by omega), hrt]

/-- C1 witness: a concrete round trip through Encode and Decode. -/
theorem round_trip_encode_decode_witness :
    AgeV.Decode (some { recipients := [1], plaintext := be64enc 3153600000 ++ [5] })
      wDec { Keys := [1] } 0 = Res.ok 5 := by
  have h := round_trip_encode_decode 5 wEnc wDec { Keys := [1] } 0 [5]
    { recipients := [1], plaintext := be64enc 3153600000 ++ [5] }
    (by decide) (by decide) (by decide) (by decide) (by decide) (by decide) (by decide)
  exact h

/-- C2.  Expiration: a token encoded at time t0 with TTL T decodes
successfully at any time strictly before t0+T and fails with the
expired error at any time strictly after t0+T; the comparison uses the
8-byte expiration field of the decrypted envelope, which holds t0+T;
and Get delegates to Decode. -/
theorem expiration_window {α : Type} (v : α) (v_enc : α → Option (List Nat))
    (v_dec : List Nat → Option α) (config : AgeV.Config) (t0 now : Int) (b : List Nat)
    (tok : AgeV.AgeToken) (req : List (String × Option AgeV.AgeToken))
    (tk : Option AgeV.AgeToken)
    (hk : config.Keys ≠ [])
    (hb : v_enc v = some b) (hrt : v_dec b = some v)
    (h0 : 0 ≤ t0 + (AgeV.Config.cookie config).MaxAge)
    (hfit : t0 + (AgeV.Config.cookie config).MaxAge < 9223372036854775808)
    (henc : AgeV.Encode v v_enc config t0 = Res.ok tok)
    (hreq : lookupCookie req (AgeV.Config.cookie config).Name = some tk) :
    be64dec (tok.plaintext.take 8) = t0 + (AgeV.Config.cookie config).MaxAge
    ∧ (now < t0 + (AgeV.Config.cookie config).MaxAge →
        AgeV.Decode (some tok) v_dec config now = Res.ok v)
    ∧ (t0 + (AgeV.Config.cookie config).MaxAge < now →
        AgeV.Decode (some tok) v_dec config now = Res.err GErr.expired)
    ∧ AgeV.Get req v_dec config now = AgeV.Decode tk v_dec config now := by
  rw [AgeV.encode_eq v v_enc config t0 hk] at henc
  have htok := (Res.ok.injEq _ _).mp henc.symm
  subst htok
  rw [hb]
  have hdec := AgeV.decode_of_encode v_dec config now
    (t0 + (AgeV.Config.cookie config).MaxAge) b hk h0 hfit
  refine ⟨?_, ?_, ?_, ?_⟩
  · simp only [Option.getD_some]
    rw [List.take_left' (be64enc_length _),
      be64dec_be64enc _ h0 hfit]
  · intro hlt
    simp only [Option.getD_some]
    rw [hdec, if_neg (by omega), hrt]
  · intro hgt
    simp only [Option.getD_some]
    rw [hdec, if_pos (by omega)]
  · simp [AgeV.Get, hreq]

/-- C2 witness: with MaxAge 60 and encode time 0, decoding succeeds at
time 0 and fails as expired at time 61; the envelope field reads 60. -/
theorem expiration_window_witness :
    be64dec ((be64enc 60 ++ [42]).take 8) = 60
    ∧ AgeV.Decode (some { recipients := [1], plaintext := be64enc 60 ++ [42] })
        wDec { Keys := [1], Cookie := some { Name := "session", MaxAge := 60 } } 0 = Res.ok 42
    ∧ AgeV.Decode (some { recipients := [1], plaintext := be64enc 60 ++ [42] })
        wDec { Keys := [1], Cookie := some { Name := "session", MaxAge := 60 } } 61
        = Res.err GErr.expired
    ∧ AgeV.Get [("session", some { recipients := [1], plaintext := be64enc 60 ++ [42] })]
        wDec { Keys := [1], Cookie := some { Name := "session", MaxAge := 60 } } 61
        = AgeV.Decode (some { recipients := [1], plaintext := be64enc 60 ++ [42] })
            wDec { Keys := [1], Cookie := some { Name := "session", MaxAge := 60 } } 61 := by
  have h0 := expiration_window 42 wEnc wDec
    { Keys := [1], Cookie := some { Name := "session", MaxAge := 60 } } 0 0 [42]
    { recipients := [1], plaintext := be64enc 60 ++ [42] }
    [("session", some { recipients := [1], plaintext := be64enc 60 ++ [42] })]
    (some { recipients := [1], plaintext := be64enc 60 ++ [42] })
    (by decide) (by decide) (by decide) (by decide) (by decide) (by decide) (by decide)
  have h61 := expiration_window 42 wEnc wDec
    { Keys := [1], Cookie := some { Name := "session", MaxAge := 60 } } 0 61 [42]
    { recipients := [1], plaintext := be64enc 60 ++ [42] }
    [("session", some { recipients := [1], plaintext := be64enc 60 ++ [42] })]
    (some { recipients := [1], plaintext := be64enc 60 ++ [42] })
    (by decide) (by decide) (by decide) (by decide) (by decide) (by decide) (by decide)
  exact ⟨h0.1, h0.2.1 (by decide), h61.2.2.1 (by decide), h61.2.2.2⟩

/-- C5.  A request carrying no cookie of the configured name makes Get
return the not-found error without any decoding, and Decode never
returns that error (so a not-found can never be a decode-side error);
likewise at the flat secretbox Get. -/
theorem missing_cookie_not_found {α : Type} (req : List (String × Option AgeV.AgeToken))
    (v_dec : List Nat → Option α) (config : AgeV.Config) (now : Int)
    (token : Option AgeV.AgeToken)
    (req2 : List (String × List Nat)) (v_dec2 : List Nat → Option α)
    (config2 : BoxFlat.Config)
    (hreq : lookupCookie req (AgeV.Config.cookie config).Name = none)
    (hreq2 : lookupCookie req2 (BoxFlat.Config.name config2) = none) :
    AgeV.Get req v_dec config now = Res.err GErr.notFound
    ∧ AgeV.Decode token v_dec config now ≠ Res.err GErr.notFound
    ∧ BoxFlat.Get req2 v_dec2 config2 now = XRes.err GErr.notFound := by
  refine ⟨by simp [AgeV.Get, hreq], ?_, by simp [BoxFlat.Get, hreq2]⟩
  cases token with
  | none => simp [AgeV.Decode]
  | some ct =>
    simp only [AgeV.Decode]
    split
    · split
      · simp
      · split
        · simp
        · split <;> simp
    · simp

/-- C5 witness: an empty request yields not-found in both variants, and
an unparseable token decodes to a different error. -/
theorem missing_cookie_not_found_witness :
    AgeV.Get [] wDec { Keys := [1] } 0 = Res.err GErr.notFound
    ∧ AgeV.Decode none wDec { Keys := [1] } 0 ≠ Res.err GErr.notFound
    ∧ BoxFlat.Get [] wDec {} 0 = XRes.err GErr.notFound := by
  exact missing_cookie_not_found [] wDec { Keys := [1] } 0 none [] wDec {}
    (by decide) (by decide)

namespace BoxFlat

/-- When no configured key opens the box, the trial loop ends in
ErrInvalid. -/
theorem getLoop_all_fail {α : Type} (v_dec : List Nat → Option α) (now maxAge : Int)
    (t : List Nat) (h24 : ¬ t.length < 24) :
    ∀ keys : List Nat, (∀ k ∈ keys, sbOpen (t.drop 24) k (nonceOf t) = none) →
      getLoop v_dec now maxAge t keys = XRes.err GErr.invalid := by
  intro keys
  induction keys with
  | nil => intro _; rfl
  | cons a ks ih =>
    intro h
    simp only [getLoop]
    rw [if_neg h24, h a (by simp)]
    exact ih (fun k hk => h k (by simp [hk]))

/-- The trial loop returns the processing of the first key that opens
the box. -/
theorem getLoop_first_key {α : Type} (v_dec : List Nat → Option α) (now maxAge : Int)
    (t : List Nat) (key : Nat) (tb : List Nat) (h24 : ¬ t.length < 24)
    (hopen : sbOpen (t.drop 24) key (nonceOf t) = some tb) :
    ∀ (pre post : List Nat), (∀ k ∈ pre, sbOpen (t.drop 24) k (nonceOf t) = none) →
      getLoop v_dec now maxAge t (pre ++ key :: post)
        = handlePlain v_dec now maxAge tb := by
  intro pre
  induction pre with
  | nil =>
    intro post _
    simp only [List.nil_append, getLoop]
    rw [if_neg h24, hopen]
  | cons a ps ih =>
    intro post h
    simp only [List.cons_append, getLoop]
    rw [if_neg h24, h a (by simp)]
    exact ih post (fun k hk => h k (by simp [hk]))

end BoxFlat

/-- C4.  Get tries each configured key in order on the cookie's box:
it returns the result computed from the first key that validates, and
returns ErrInvalid only when every configured key has been tried and
none validates. -/
theorem decode_tries_keys_in_order {α : Type} (req : List (String × List Nat))
    (v_dec : List Nat → Option α) (config : BoxFlat.Config) (now : Int) (t : List Nat)
    (pre post : List Nat) (key : Nat) (tb : List Nat)
    (hreq : lookupCookie req (BoxFlat.Config.name config) = some t)
    (h24 : 24 ≤ t.length) :
    ((∀ k ∈ config.Keys, sbOpen (t.drop 24) k (nonceOf t) = none) →
        BoxFlat.Get req v_dec config now = XRes.err GErr.invalid)
    ∧ (config.Keys = pre ++ key :: post →
        (∀ k ∈ pre, sbOpen (t.drop 24) k (nonceOf t) = none) →
        sbOpen (t.drop 24) key (nonceOf t) = some tb →
        BoxFlat.Get req v_dec config now
          = handlePlain v_dec now (BoxFlat.Config.maxAge config) tb) := by
  have h24n : ¬ t.length < 24 := by omega
  constructor
  · intro hall
    simp only [BoxFlat.Get, hreq]
    exact BoxFlat.getLoop_all_fail v_dec now (BoxFlat.Config.maxAge config) t h24n
      config.Keys hall
  · intro hsplit hpre hopen
    simp only [BoxFlat.Get, hreq, hsplit]
    exact BoxFlat.getLoop_first_key v_dec now (BoxFlat.Config.maxAge config) t key tb
      h24n hopen pre post hpre

/-- C4 witness: with keys [1, 2] and a box sealed under key 2, the
first key fails, the second opens, and Get returns the decoded
payload. -/
theorem decode_tries_keys_in_order_witness :
    BoxFlat.Get [("session", c4t)] (fun l => some l) { Keys := [1, 2] } 0
      = XRes.ok [7] := by
  have h := (decode_tries_keys_in_order (α := List Nat) [("session", c4t)]
    (fun l => some l) { Keys := [1, 2] } 0 c4t [1] [] 2 (be64enc 0 ++ [7])
    (by decide) (by decide)).2 (by decide) (by decide) (by decide)
  rw [h]
  decide

/-- C3.  When the serialized Set-Cookie line of the encoded session is
longer than 4093 bytes, the flat secretbox Set fails with ErrTooLong
and the response header collection is unchanged; when it is at most
4093 bytes no such error occurs and the line is appended. -/
theorem set_size_limit {α : Type} (hdr : List (List Nat)) (v : α)
    (v_enc : α → Option (List Nat)) (cookieStr : BoxFlat.CookieRec → List Nat)
    (config : BoxFlat.Config) (now : Int) (nonce : List Nat) (b : List Nat)
    (key0 : Nat) (krest : List Nat)
    (hb : v_enc v = some b) (hkeys : config.Keys = key0 :: krest) :
    (4093 < (cookieStr (BoxFlat.buildCookie config now
          (nonce ++ sbSeal key0 nonce (BoxFlat.sealPlain now b)))).length →
        BoxFlat.Set hdr v v_enc cookieStr config now nonce
          = BoxFlat.SetRes.err GErr.tooLong hdr)
    ∧ ((cookieStr (BoxFlat.buildCookie config now
          (nonce ++ sbSeal key0 nonce (BoxFlat.sealPlain now b)))).length ≤ 4093 →
        BoxFlat.Set hdr v v_enc cookieStr config now nonce
          = BoxFlat.SetRes.ok (hdr ++ [cookieStr (BoxFlat.buildCookie config now
              (nonce ++ sbSeal key0 nonce (BoxFlat.sealPlain now b)))])) := by
  constructor
  · intro hlong
    simp only [BoxFlat.Set, hb, hkeys]
    rw [if_pos (by simpa [BoxFlat.maxSize] using hlong)]
  · intro hshort
    simp only [BoxFlat.Set, hb, hkeys]
    rw [if_neg (by simp only [BoxFlat.maxSize]; omega)]

/-- C3 witness: a short cookie line passes the size check and is
appended to the headers. -/
theorem set_size_limit_witness :
    BoxFlat.Set [] 5 wEnc (fun r => r.Value) { Keys := [9] } 0 nonce0
      = BoxFlat.SetRes.ok [nonce0 ++ sbSeal 9 nonce0 (BoxFlat.sealPlain 0 [5])] := by
  exact (set_size_limit [] 5 wEnc (fun r => r.Value) { Keys := [9] } 0 nonce0 [5] 9 []
    (by decide) (by decide)).2 (by decide)

/-- C6 counterexample: the flat secretbox Set seals the issuance
timestamp, not the absolute expiration: at encode time 0 with MaxAge 60
the sealed envelope begins with the encoding of 0, which differs from
the envelope that the claimed layout (expiration timestamp 0 + 60)
would give. -/
theorem envelope_timestamp_counterexample :
    BoxFlat.Set [] 42 wEnc (fun r => r.Value) { MaxAge := 60, Keys := [7] } 0 nonce0
      = BoxFlat.SetRes.ok [nonce0 ++ sbSeal 7 nonce0 (be64enc 0 ++ [42])]
    ∧ be64enc 0 ++ [42]
        ≠ be64enc (0 + BoxFlat.Config.maxAge { MaxAge := 60, Keys := [7] }) ++ [42] := by
  decide

/-- C6 amended: in both variants the plaintext handed to the
authenticated-encryption primitive is exactly an 8-byte big-endian
Unix-seconds timestamp followed by the serialized payload bytes,
encrypted as one unit; the timestamp is the absolute expiration
now + MaxAge in the age variant's Encode, but the issuance time now in
the flat secretbox variant's Set (whose TTL is enforced at decode time
instead). -/
theorem envelope_layout_amended {α : Type} (v : α) (v_enc : α → Option (List Nat))
    (ca : AgeV.Config) (nowA : Int) (bA : List Nat) (tok : AgeV.AgeToken)
    (hdr : List (List Nat)) (cookieStr : BoxFlat.CookieRec → List Nat)
    (cf : BoxFlat.Config) (nowF : Int) (nonce bF : List Nat)
    (vF : α) (v_encF : α → Option (List Nat)) (key0 : Nat) (krest : List Nat)
    (hbA : v_enc v = some bA)
    (hencA : AgeV.Encode v v_enc ca nowA = Res.ok tok)
    (h0A : 0 ≤ nowA + (AgeV.Config.cookie ca).MaxAge)
    (hfitA : nowA + (AgeV.Config.cookie ca).MaxAge < 9223372036854775808)
    (h0F : 0 ≤ nowF) (hfitF : nowF < 9223372036854775808)
    (hbF : v_encF vF = some bF) (hkeys : cf.Keys = key0 :: krest) :
    tok.plaintext = be64enc (nowA + (AgeV.Config.cookie ca).MaxAge) ++ bA
    ∧ (be64enc (nowA + (AgeV.Config.cookie ca).MaxAge)).length = 8
    ∧ be64dec (tok.plaintext.take 8) = nowA + (AgeV.Config.cookie ca).MaxAge
    ∧ BoxFlat.sealPlain nowF bF = be64enc nowF ++ bF
    ∧ be64dec ((BoxFlat.sealPlain nowF bF).take 8) = nowF
    ∧ (BoxFlat.Set hdr vF v_encF cookieStr cf nowF nonce
          = BoxFlat.SetRes.err GErr.tooLong hdr
        ∨ BoxFlat.Set hdr vF v_encF cookieStr cf nowF nonce
          = BoxFlat.SetRes.ok (hdr ++ [cookieStr (BoxFlat.buildCookie cf nowF
              (nonce ++ sbSeal key0 nonce (be64enc nowF ++ bF)))])) := by
  have hkA : ca.Keys ≠ [] := by
    intro h
    rw [AgeV.Encode, if_pos h] at hencA
    exact absurd hencA (by simp)
  rw [AgeV.encode_eq v v_enc ca nowA hkA] at hencA
  have htok := (Res.ok.injEq _ _).mp hencA.symm
  subst htok
  refine ⟨by simp [hbA], be64enc_length _, ?_, rfl, ?_, ?_⟩
  · simp only [hbA, Option.getD_some]
    rw [List.take_left' (be64enc_length _), be64dec_be64enc _ h0A hfitA]
  · rw [BoxFlat.sealPlain, List.take_left' (be64enc_length _),
      be64dec_be64enc _ h0F hfitF]
  · simp only [BoxFlat.Set, hbF, hkeys]
    by_cases hlen : BoxFlat.maxSize < (cookieStr (BoxFlat.buildCookie cf nowF
        (nonce ++ sbSeal key0 nonce (BoxFlat.sealPlain nowF bF)))).length
    · left
      rw [if_pos hlen]
    · right
      rw [if_neg hlen]
      rfl

/-- C6 amended witness: concrete envelopes in both variants. -/
theorem envelope_layout_amended_witness :
    be64enc 3153600000 ++ [5] = be64enc (0 + (AgeV.Config.cookie { Keys := [1] }).MaxAge) ++ [5]
    ∧ (be64enc (0 + (AgeV.Config.cookie { Keys := [1] }).MaxAge)).length = 8
    ∧ be64dec ((be64enc 3153600000 ++ [5]).take 8)
        = 0 + (AgeV.Config.cookie { Keys := [1] }).MaxAge
    ∧ BoxFlat.sealPlain 5 [42] = be64enc 5 ++ [42]
    ∧ be64dec ((BoxFlat.sealPlain 5 [42]).take 8) = 5
    ∧ (BoxFlat.Set [] 42 wEnc (fun r => r.Value) { MaxAge := 60, Keys := [7] } 5 nonce0
          = BoxFlat.SetRes.err GErr.tooLong []
        ∨ BoxFlat.Set [] 42 wEnc (fun r => r.Value) { MaxAge := 60, Keys := [7] } 5 nonce0
          = BoxFlat.SetRes.ok ([] ++ [(fun r => r.Value) (BoxFlat.buildCookie
              { MaxAge := 60, Keys := [7] } 5
              (nonce0 ++ sbSeal 7 nonce0 (be64enc 5 ++ [42])))])) := by
  exact envelope_layout_amended 5 wEnc { Keys := [1] } 0 [5]
    { recipients := [1], plaintext := be64enc 3153600000 ++ [5] } [] (fun r => r.Value)
    { MaxAge := 60, Keys := [7] } 5 nonce0 [42] 42 wEnc 7 []
    (by decide) (by decide) (by decide) (by decide) (by decide) (by decide)
    (by decide) (by decide)

/-- C8 counterexample: in the age variant a payload whose serialization
fails does not produce an EncodingError — Encode discards the json
error and succeeds, returning a token whose envelope carries only the
expiration timestamp. -/
theorem encode_swallows_marshal_error_cex :
    AgeV.Encode 0 (fun _ : Nat => (none : Option (List Nat))) { Keys := [1] } 0
      = Res.ok { recipients := [1], plaintext := be64enc 3153600000 } := by
  decide

/-- C8 amended: when serialization fails, the flat secretbox Set
returns the serialization error and writes nothing, while the age
variant's Encode discards the error and succeeds with an envelope
holding only the expiration timestamp. -/
theorem serialization_failure_amended {α : Type} (v : α) (v_enc : α → Option (List Nat))
    (now : Int) (hdr : List (List Nat)) (cookieStr : BoxFlat.CookieRec → List Nat)
    (cf : BoxFlat.Config) (nonce : List Nat) (ca : AgeV.Config)
    (hv : v_enc v = none) (hk : ca.Keys ≠ []) :
    BoxFlat.Set hdr v v_enc cookieStr cf now nonce
      = BoxFlat.SetRes.err GErr.encodingErr hdr
    ∧ AgeV.Encode v v_enc ca now
        = Res.ok { recipients := ca.Keys,
                   plaintext := be64enc (now + (AgeV.Config.cookie ca).MaxAge) } := by
  constructor
  · simp [BoxFlat.Set, hv]
  · rw [AgeV.encode_eq v v_enc ca now hk, hv]
    simp

/-- C8 amended witness: a always-failing serializer at concrete
configurations. -/
theorem serialization_failure_amended_witness :
    BoxFlat.Set [] 0 (fun _ : Nat => (none : Option (List Nat))) (fun r => r.Value)
        {} 0 nonce0
      = BoxFlat.SetRes.err GErr.encodingErr []
    ∧ AgeV.Encode 0 (fun _ : Nat => (none : Option (List Nat))) { Keys := [1] } 0
        = Res.ok { recipients := [1],
                   plaintext := be64enc (0 + (AgeV.Config.cookie { Keys := [1] }).MaxAge) } := by
  exact serialization_failure_amended 0 (fun _ => none) 0 [] (fun r => r.Value) {} nonce0
    { Keys := [1] } (by decide) (by decide)

/-- C9.  Defaults: with Cookie nil the age variant uses DefaultCookie
(name "session", path "/", max-age 100 years = 3153600000 seconds,
secure, http-only); in both secretbox variants an unset name defaults
to "session" and an unset MaxAge to 100 years; the flat variant's Get
behaves identically under an unset name and the name "session", and
its Set builds the cookie with path "/" when unset and with secure and
http-only always true. -/
theorem config_defaults {α : Type} (keys : List Nat) (ce : BoxEmbed.Config)
    (cfa cfb cfc : BoxFlat.Config) (req : List (String × List Nat))
    (v_dec : List Nat → Option α) (now : Int) (val : List Nat)
    (he1 : ce.Cookie.Name = "") (he2 : ce.MaxAge = 0)
    (hf1 : cfa.Name = "") (hf2 : cfb.MaxAge = 0) (hf3 : cfc.Path = "") :
    AgeV.Config.cookie { Keys := keys, Cookie := none } = AgeV.DefaultCookie
    ∧ AgeV.DefaultCookie.Name = "session"
    ∧ AgeV.DefaultCookie.Path = "/"
    ∧ AgeV.DefaultCookie.MaxAge = 3153600000
    ∧ AgeV.DefaultCookie.Secure = true
    ∧ AgeV.DefaultCookie.HttpOnly = true
    ∧ BoxEmbed.Config.name ce = "session"
    ∧ BoxEmbed.Config.maxAge ce = 3153600000
    ∧ BoxFlat.Config.name cfa = "session"
    ∧ BoxFlat.Config.maxAge cfb = 3153600000
    ∧ BoxFlat.Get req v_dec cfa now = BoxFlat.Get req v_dec { cfa with Name := "session" } now
    ∧ (BoxFlat.buildCookie cfc now val).Path = "/"
    ∧ (BoxFlat.buildCookie cfc now val).Secure = true
    ∧ (BoxFlat.buildCookie cfc now val).HttpOnly = true := by
  refine ⟨rfl, rfl, rfl, rfl, rfl, rfl, ?_, ?_, ?_, ?_, ?_, ?_, rfl, rfl⟩
  · simp [BoxEmbed.Config.name, he1]
  · simp [BoxEmbed.Config.maxAge, he2]
  · simp [BoxFlat.Config.name, hf1]
  · simp [BoxFlat.Config.maxAge, hf2]
  · simp [BoxFlat.Get, BoxFlat.Config.name, BoxFlat.Config.maxAge, hf1]
  · simp [BoxFlat.buildCookie, hf3]

/-- C9 witness: the defaults at concrete zero-valued configurations. -/
theorem config_defaults_witness :
    AgeV.Config.cookie { Keys := [1], Cookie := none } = AgeV.DefaultCookie
    ∧ AgeV.DefaultCookie.Name = "session"
    ∧ AgeV.DefaultCookie.Path = "/"
    ∧ AgeV.DefaultCookie.MaxAge = 3153600000
    ∧ AgeV.DefaultCookie.Secure = true
    ∧ AgeV.DefaultCookie.HttpOnly = true
    ∧ BoxEmbed.Config.name {} = "session"
    ∧ BoxEmbed.Config.maxAge {} = 3153600000
    ∧ BoxFlat.Config.name {} = "session"
    ∧ BoxFlat.Config.maxAge {} = 3153600000
    ∧ BoxFlat.Get [] wDec {} 0 = BoxFlat.Get [] wDec { ({} : BoxFlat.Config) with Name := "session" } 0
    ∧ (BoxFlat.buildCookie {} 0 []).Path = "/"
    ∧ (BoxFlat.buildCookie {} 0 []).Secure = true
    ∧ (BoxFlat.buildCookie {} 0 []).HttpOnly = true := by
  exact config_defaults [1] {} {} {} {} [] wDec 0 [] rfl rfl rfl rfl rfl

/-- C10 counterexample: with an empty key list the flat secretbox Get
never evaluates t[24:], so a request whose named cookie value is
shorter than the 24-byte nonce yields ErrInvalid rather than the
panic the claim asserts for every such request. -/
theorem short_cookie_no_crash_on_empty_keys :
    BoxFlat.Get [("session", [])] (fun l => some l) {} 0 = XRes.err GErr.invalid
    ∧ (XRes.err GErr.invalid : XRes (List Nat)) ≠ XRes.crash := by
  decide

/-- C10 amended: in the embedded-cookie variant Get panics on any named
cookie value shorter than nonce + overhead = 40 bytes (the negative
make length comes before the key loop), whatever the key list; in the
flat variant Get panics on any value shorter than the 24-byte nonce
provided at least one key is configured (with no keys the loop body
that evaluates t[24:] never runs and Get returns ErrInvalid). -/
theorem short_cookie_crashes_amended {α : Type} (v_dec : List Nat → Option α) (now : Int)
    (req1 : List (String × List Nat)) (c1 : BoxEmbed.Config) (t1 : List Nat)
    (req2 : List (String × List Nat)) (c2 : BoxFlat.Config) (t2 : List Nat)
    (hr1 : lookupCookie req1 (BoxEmbed.Config.name c1) = some t1) (hl1 : t1.length < 40)
    (hr2 : lookupCookie req2 (BoxFlat.Config.name c2) = some t2) (hl2 : t2.length < 24)
    (hk2 : c2.Keys ≠ []) :
    BoxEmbed.Get req1 v_dec c1 now = XRes.crash
    ∧ BoxFlat.Get req2 v_dec c2 now = XRes.crash := by
  constructor
  · simp [BoxEmbed.Get, hr1, hl1]
  · simp only [BoxFlat.Get, hr2]
    cases hks : c2.Keys with
    | nil => exact absurd hks hk2
    | cons a ks =>
      simp only [BoxFlat.getLoop]
      rw [if_pos hl2]

/-- C10 amended witness: a 3-byte cookie value panics in both variants
when a key is configured. -/
theorem short_cookie_crashes_amended_witness :
    BoxEmbed.Get [("session", [0, 1, 2])] wDec {} 0 = XRes.crash
    ∧ BoxFlat.Get [("session", [0, 1, 2])] wDec { Keys := [1] } 0 = XRes.crash := by
  exact short_cookie_crashes_amended wDec 0 [("session", [0, 1, 2])] {} [0, 1, 2]
    [("session", [0, 1, 2])] { Keys := [1] } [0, 1, 2]
    (by decide) (by decide) (by decide) (by decide) (by decide)

/-! Cookie-replacement machinery for the age variant's setCookie. -/

theorem takeWhile_append_all {α : Type} (p : α → Bool) (l1 l2 : List α)
    (h : ∀ a ∈ l1, p a = true) :
    (l1 ++ l2).takeWhile p = l1 ++ l2.takeWhile p := by
  induction l1 with
  | nil => simp
  | cons a t ih =>
    have ha := h a (by simp)
    simp [List.takeWhile_cons, ha, ih (fun x hx => h x (by simp [hx]))]

theorem dropWhile_append_all {α : Type} (p : α → Bool) (l1 l2 : List α)
    (h : ∀ a ∈ l1, p a = true) :
    (l1 ++ l2).dropWhile p = l2.dropWhile p := by
  induction l1 with
  | nil => simp
  | cons a t ih =>
    have ha := h a (by simp)
    simp [List.dropWhile_cons, ha, ih (fun x hx => h x (by simp [hx]))]

theorem takeWhile_nil_append {α : Type} (p : α → Bool) (l1 l2 : List α)
    (h1 : l1.takeWhile p = []) (h2 : l2.takeWhile p = []) :
    (l1 ++ l2).takeWhile p = [] := by
  cases l1 with
  | nil => simpa using h2
  | cons a t =>
    rw [List.takeWhile_cons] at h1
    by_cases hpa : p a = true
    · rw [if_pos hpa] at h1
      exact absurd h1 (by simp)
    · simp only [List.cons_append, List.takeWhile_cons]
      rw [if_neg hpa]

theorem takeWhile_flatten_nil (p : Char → Bool) (ls : List (List Char))
    (h : ∀ l ∈ ls, l.takeWhile p = []) : ls.flatten.takeWhile p = [] := by
  induction ls with
  | nil => rfl
  | cons a t ih =>
    rw [List.flatten_cons]
    exact takeWhile_nil_append p a t.flatten (h a (by simp))
      (ih (fun l hl => h l (by simp [hl])))

namespace AgeV

theorem validNameChar_not_semi (ch : Char) (h : validNameChar ch = true) :
    (!(ch == ';')) = true := by
  by_cases hc : ch = ';'
  · subst hc
    exact absurd h (by decide)
  · simp [hc]

theorem validNameChar_not_eq (ch : Char) (h : validNameChar ch = true) :
    (!(ch == '=')) = true := by
  by_cases hc : ch = '='
  · subst hc
    exact absurd h (by decide)
  · simp [hc]

theorem validValueChar_not_semi (ch : Char) (h : validValueChar ch = true) :
    (!(ch == ';')) = true := by
  by_cases hc : ch = ';'
  · subst hc
    exact absurd h (by decide)
  · simp [hc]

theorem takeWhile_attrChunk (label v : List Char) :
    (attrChunk label v).takeWhile (fun ch => !(ch == ';')) = [] := by
  simp [attrChunk, List.takeWhile_cons]

theorem takeWhile_attrText (c : GoCookie) :
    (attrText c).takeWhile (fun ch => !(ch == ';')) = [] := by
  apply takeWhile_flatten_nil
  intro l hl
  simp only [List.mem_cons, List.not_mem_nil, or_false] at hl
  rcases hl with h | h | h | h | h | h <;> subst h <;> (repeat' split) <;>
    first
      | rfl
      | exact takeWhile_attrChunk _ _

theorem name_toList_ne_nil (c : GoCookie) (hn : validName c.Name = true) :
    c.Name.toList ≠ [] := by
  intro h
  have hne : c.Name ≠ "" := by
    intro hq
    rw [hq] at hn
    exact absurd hn (by decide)
  exact hne (String.ext h)

theorem parseSetCookie_cookieString (c : GoCookie)
    (hn : validName c.Name = true) (hv : validValue c.Value = true) :
    parseSetCookie (cookieString c) = some (c.Name.toList, c.Value) := by
  have hn2 : c.Name.toList.all validNameChar = true :=
    ((Bool.and_eq_true _ _).mp hn).2
  have hnc : ∀ a ∈ c.Name.toList, validNameChar a = true :=
    fun a ha => List.all_eq_true.mp hn2 a ha
  have hvc : ∀ a ∈ c.Value, validValueChar a = true :=
    fun a ha => List.all_eq_true.mp hv a ha
  have hall_name_semi : ∀ a ∈ c.Name.toList, (fun ch => !(ch == ';')) a = true :=
    fun a ha => validNameChar_not_semi a (hnc a ha)
  have hall_name_eq : ∀ a ∈ c.Name.toList, (fun ch => !(ch == '=')) a = true :=
    fun a ha => validNameChar_not_eq a (hnc a ha)
  have hall_val_semi : ∀ a ∈ c.Value, (fun ch => !(ch == ';')) a = true :=
    fun a ha => validValueChar_not_semi a (hvc a ha)
  have hcs : cookieString c = c.Name.toList ++ '=' :: (c.Value ++ attrText c) := by
    unfold cookieString
    rw [if_pos hn]
  have hseg : (c.Name.toList ++ '=' :: (c.Value ++ attrText c)).takeWhile
      (fun ch => !(ch == ';')) = c.Name.toList ++ '=' :: c.Value := by
    rw [takeWhile_append_all _ _ _ hall_name_semi, List.takeWhile_cons,
      if_pos (by decide), takeWhile_append_all _ _ _ hall_val_semi,
      takeWhile_attrText, List.append_nil]
  have hnm : (c.Name.toList ++ '=' :: c.Value).takeWhile (fun ch => !(ch == '='))
      = c.Name.toList := by
    rw [takeWhile_append_all _ _ _ hall_name_eq, List.takeWhile_cons,
      if_neg (by decide), List.append_nil]
  have hrest : (c.Name.toList ++ '=' :: c.Value).dropWhile (fun ch => !(ch == '='))
      = '=' :: c.Value := by
    rw [dropWhile_append_all _ _ _ hall_name_eq, List.dropWhile_cons,
      if_neg (by decide)]
  have hemp : c.Name.toList.isEmpty = false := by
    cases hl : c.Name.toList with
    | nil => exact absurd hl (name_toList_ne_nil c hn)
    | cons a t => rfl
  have hv2 : c.Value.all validValueChar = true := hv
  rw [hcs]
  simp only [parseSetCookie, hseg, hnm, hrest]
  rw [if_pos (by rw [hn2, hemp, hv2]; rfl)]

theorem isValidCookie_cookieString (c : GoCookie) (m : String)
    (hn : validName c.Name = true) (hv : validValue c.Value = true) :
    isValidCookie (cookieString c) m = (c.Name == m) := by
  unfold isValidCookie
  rw [parseSetCookie_cookieString c hn hv]
  by_cases h : c.Name = m
  · subst h
    simp
  · have hne : ¬ c.Name.data = m.data := fun hh => h (String.ext hh)
    simp [h, hne]

theorem cookieString_ne_nil (c : GoCookie) (hn : validName c.Name = true) :
    cookieString c ≠ [] := by
  unfold cookieString
  rw [if_pos hn]
  simp

theorem filter_map_swap (p : List Char → Bool) (s : List Char) (hs : p s = true)
    (h : List (List Char)) :
    (h.map (fun e => if p e then s else e)).filter p = (h.filter p).map (fun _ => s) := by
  induction h with
  | nil => rfl
  | cons a t ih =>
    cases hpa : p a with
    | true => simp [List.filter_cons, hpa, hs, ih]
    | false => simp [List.filter_cons, hpa, ih]

theorem filter_not_map_swap (p : List Char → Bool) (s : List Char) (hs : p s = true)
    (h : List (List Char)) :
    (h.map (fun e => if p e then s else e)).filter (fun e => !(p e))
      = h.filter (fun e => !(p e)) := by
  induction h with
  | nil => rfl
  | cons a t ih =>
    cases hpa : p a with
    | true => simp [List.filter_cons, hpa, hs, ih]
    | false => simp [List.filter_cons, hpa, ih]

/-- What a successful setCookie guarantees: afterwards exactly one
entry parses to the cookie's name — the fresh serialization — and the
entries not carrying that name are untouched. -/
theorem setCookie_spec (h : List (List Char)) (c : GoCookie)
    (hn : validName c.Name = true) (hv : validValue c.Value = true)
    (hcount : (h.filter (fun e => isValidCookie e c.Name)).length ≤ 1)
    (h2 : List (List Char)) (hset : setCookie h c = Res.ok h2) :
    h2.filter (fun e => isValidCookie e c.Name) = [cookieString c]
    ∧ h2.filter (fun e => !(isValidCookie e c.Name))
        = h.filter (fun e => !(isValidCookie e c.Name)) := by
  have hps : isValidCookie (cookieString c) c.Name = true := by
    rw [isValidCookie_cookieString c c.Name hn hv]
    simp
  simp only [setCookie] at hset
  rw [if_neg (cookieString_ne_nil c hn)] at hset
  by_cases hany : h.any (fun e => isValidCookie e c.Name) = true
  · rw [if_pos hany] at hset
    have hh2 := (Res.ok.injEq _ _).mp hset
    subst hh2
    constructor
    · rw [filter_map_swap _ _ hps h]
      obtain ⟨x, hx, hpx⟩ := List.any_eq_true.mp hany
      have hpos : 0 < (h.filter (fun e => isValidCookie e c.Name)).length :=
        List.length_pos.mpr (List.ne_nil_of_mem (List.mem_filter.mpr ⟨hx, hpx⟩))
      have hlen1 : (h.filter (fun e => isValidCookie e c.Name)).length = 1 := by
        omega
      obtain ⟨w, hw⟩ := List.length_eq_one.mp hlen1
      rw [hw]
      rfl
    · exact filter_not_map_swap _ _ hps h
  · rw [if_neg hany] at hset
    have hh2 := (Res.ok.injEq _ _).mp hset
    subst hh2
    have hnilf : h.filter (fun e => isValidCookie e c.Name) = [] := by
      rw [List.filter_eq_nil_iff]
      exact List.any_eq_false.mp (by simpa using hany)
    constructor
    · rw [List.filter_append, hnilf]
      simp [hps]
    · rw [List.filter_append]
      simp [hps]

end AgeV

/-- C7.  Calling Set twice with the same configuration on one response
leaves exactly one Set-Cookie entry for the configured cookie name —
carrying the value of the latest call — and leaves entries for other
cookie names in place. -/
theorem set_cookie_replacement {α : Type} (hdr hdr1 hdr2 : List (List Char)) (v1 v2 : α)
    (v_enc : α → Option (List Nat)) (tokenText : AgeV.AgeToken → List Char)
    (config : AgeV.Config) (now1 now2 : Int)
    (hk : config.Keys ≠ [])
    (hn : AgeV.validName (AgeV.Config.cookie config).Name = true)
    (hv : ∀ tok, AgeV.validValue (tokenText tok) = true)
    (hcount : (hdr.filter
        (fun e => AgeV.isValidCookie e (AgeV.Config.cookie config).Name)).length ≤ 1)
    (h1 : AgeV.Set hdr v1 v_enc tokenText config now1 = Res.ok hdr1)
    (h2 : AgeV.Set hdr1 v2 v_enc tokenText config now2 = Res.ok hdr2) :
    hdr2.filter (fun e => AgeV.isValidCookie e (AgeV.Config.cookie config).Name)
      = [AgeV.cookieString { (AgeV.Config.cookie config) with
          Value := tokenText ⟨config.Keys,
            be64enc (now2 + (AgeV.Config.cookie config).MaxAge)
              ++ (v_enc v2).getD []⟩ }]
    ∧ hdr2.filter (fun e => !(AgeV.isValidCookie e (AgeV.Config.cookie config).Name))
      = hdr.filter (fun e => !(AgeV.isValidCookie e (AgeV.Config.cookie config).Name)) := by
  simp only [AgeV.Set, AgeV.encode_eq _ v_enc config _ hk] at h1 h2
  have hs1 := AgeV.setCookie_spec hdr
    { (AgeV.Config.cookie config) with Value := tokenText ⟨config.Keys,
        be64enc (now1 + (AgeV.Config.cookie config).MaxAge) ++ (v_enc v1).getD []⟩ }
    hn (hv _) hcount hdr1 h1
  have hcount1 : (hdr1.filter
      (fun e => AgeV.isValidCookie e (AgeV.Config.cookie config).Name)).length ≤ 1 := by
    rw [hs1.1]
    exact le_refl 1
  have hs2 := AgeV.setCookie_spec hdr1
    { (AgeV.Config.cookie config) with Value := tokenText ⟨config.Keys,
        be64enc (now2 + (AgeV.Config.cookie config).MaxAge) ++ (v_enc v2).getD []⟩ }
    hn (hv _) hcount1 hdr2 h2
  exact ⟨hs2.1, hs2.2.trans hs1.2⟩

/-- C7 witness: two concrete Set calls on an initially empty response
leave exactly the latest serialization for "session" and nothing else. -/
theorem set_cookie_replacement_witness :
    ([AgeV.cookieString { AgeV.DefaultCookie with Value := ['t'] }].filter
        (fun e => AgeV.isValidCookie e (AgeV.Config.cookie { Keys := [1] }).Name))
      = [AgeV.cookieString { (AgeV.Config.cookie { Keys := [1] }) with
          Value := (fun _ : AgeV.AgeToken => ['t']) ⟨[1],
            be64enc (0 + (AgeV.Config.cookie { Keys := [1] }).MaxAge)
              ++ (wEnc 2).getD []⟩ }]
    ∧ ([AgeV.cookieString { AgeV.DefaultCookie with Value := ['t'] }].filter
        (fun e => !(AgeV.isValidCookie e (AgeV.Config.cookie { Keys := [1] }).Name)))
      = ([] : List (List Char)).filter
          (fun e => !(AgeV.isValidCookie e (AgeV.Config.cookie { Keys := [1] }).Name)) := by
  exact set_cookie_replacement []
    [AgeV.cookieString { AgeV.DefaultCookie with Value := ['t'] }]
    [AgeV.cookieString { AgeV.DefaultCookie with Value := ['t'] }] 1 2 wEnc
    (fun _ : AgeV.AgeToken => ['t']) { Keys := [1] } 0 0 (by decide) (by decide)
    (fun _ => (by decide : AgeV.validValue ['t'] = true)) (by decide) (by decide)
    (by decide)

end Session
